import Mathlib

/-!
Verification development for the NYC_Traffic_Flow_GNN dashboard
(`src/app.py`): a shallow embedding of its data loading, cascading
categorical filtering, and anomaly derivation, together with theorems
about them.

Conventions of the embedding:
* a CSV cell is a `Val` (a number, an arbitrary string, or a missing
  value `na`, the embedding of pandas `NaN`);
* machine floats are modelled by `ℚ`;
* a row of the dataset is a `Row` with the columns the script touches;
  the `month`, `day_of_week` and `hour` categoricals are integers that
  may be missing (`Option ℤ`), as the script applies `dropna` to them;
* a raw, untyped table (header plus rows of cells) is a `Table`; it is
  used for the load-time and column-shape properties, where the set of
  columns actually present matters;
* pandas operations that raise (`KeyError` on a missing column,
  `read_csv` failures) are embedded with `Except`.
-/

/-- A CSV cell: a numeric value, a non-numeric string, a boolean
(produced by comparisons), or a missing value (pandas `NaN`). -/
inductive Val where
  | num (q : ℚ)
  | str (s : String)
  | bool (b : Bool)
  | na
deriving DecidableEq, Repr

/-- Strictly parse a run of decimal digits (fails on empty or non-digit
input), as the integer-part / fraction-part workhorse of numeric string
parsing. -/
def parseDigits : List Char → Option ℕ
  | [] => none
  | cs =>
    cs.foldl
      (fun acc c =>
        match acc with
        | none => none
        | some a => if c.isDigit then some (a * 10 + (c.toNat - '0'.toNat)) else none)
      (some 0)

/-- Parse an unsigned decimal literal (`"12"`, `"3.5"`, `".5"`, `"3."`)
into a rational; fails when the text is not numeric. -/
def parseUnsigned (cs : List Char) : Option ℚ :=
  match cs.span (fun c => c ≠ '.') with
  | (ip, []) => (parseDigits ip).map (fun n => (n : ℚ))
  | (ip, _ :: fp) =>
    if ip = [] ∧ fp = [] then none
    else
      match (if ip = [] then some 0 else parseDigits ip),
            (if fp = [] then some 0 else parseDigits fp) with
      | some i, some f => some ((i : ℚ) + (f : ℚ) / (10 : ℚ) ^ fp.length)
      | _, _ => none

/-- Strip surrounding whitespace from a character list, as
`pd.to_numeric` tolerates it around numeric strings. -/
def trimChars (cs : List Char) : List Char :=
  ((cs.dropWhile (fun c => c.isWhitespace)).reverse.dropWhile (fun c => c.isWhitespace)).reverse

/-- Parse a signed decimal literal, tolerating surrounding whitespace,
as `pd.to_numeric` does for strings; fails on non-numeric text. -/
def parseRat (s : String) : Option ℚ :=
  match trimChars s.data with
  | '-' :: rest => (parseUnsigned rest).map (fun q => -q)
  | '+' :: rest => parseUnsigned rest
  | cs => parseUnsigned cs

/-- Embeds `pd.to_numeric(col, errors="coerce")` on one cell
(src/app.py lines 52–53, 87–88): numbers pass through, numeric strings
are parsed, anything unparseable or missing becomes `NaN`. -/
def toNumeric : Val → Val
  | .num q => .num q
  | .str s =>
    match parseRat s with
    | some q => .num q
    | none => .na
  | .bool b => .num (if b then 1 else 0)
  | .na => .na

/-- Embeds `col.fillna(0)` on one cell (src/app.py lines 56–57, 91–92). -/
def fillna0 : Val → Val
  | .na => .num 0
  | v => v

/-- One cell of the script's coercion pass: `pd.to_numeric(errors="coerce")`
followed by `fillna(0)` (src/app.py lines 52–57). Always yields a number. -/
def coerceVal (v : Val) : Val := fillna0 (toNumeric v)

/-- The numeric value a cell holds after the coercion pass. -/
def coerceNum (v : Val) : ℚ :=
  match toNumeric v with
  | .num q => q
  | _ => 0

/-- A row of `data/processed/node_features_with_predictions.csv`, with
the columns `src/app.py` uses. The time categoricals are integers that
may be missing; `truth` and `predictions` arrive as raw cells that are
only nominally numeric. -/
structure Row where
  node_id : ℤ
  month : Option ℤ
  day_of_week : Option ℤ
  hour : Option ℤ
  latitude_x : ℚ
  longitude_x : ℚ
  spatial_cluster_x : ℤ
  grid_cluster_x : ℤ
  truth : Val
  predictions : Val
deriving DecidableEq, Repr

/-- Embeds `data[data["month"] == month]` (src/app.py line 28). A pandas
equality comparison against `NaN` is `False`, which `Option.some m`
equality captures: a row with a missing month never matches. -/
def filterMonth (m : ℤ) (rows : List Row) : List Row :=
  rows.filter (fun r => r.month == some m)

/-- Embeds `filtered_data[filtered_data["day_of_week"] == day_of_week]`
(src/app.py line 33). -/
def filterDay (d : ℤ) (rows : List Row) : List Row :=
  rows.filter (fun r => r.day_of_week == some d)

/-- Embeds `filtered_data[filtered_data["hour"] == hour]`
(src/app.py line 40). -/
def filterHour (h : ℤ) (rows : List Row) : List Row :=
  rows.filter (fun r => r.hour == some h)

/-- Insert into a sorted list, the workhorse of the embedding of
Python's `sorted(...)`. -/
def insertSorted (x : ℤ) : List ℤ → List ℤ
  | [] => [x]
  | y :: ys => if x ≤ y then x :: y :: ys else y :: insertSorted x ys

/-- Embeds Python's `sorted(...)` over integer values
(src/app.py lines 25, 32, 39). -/
def sortInts (l : List ℤ) : List ℤ := l.foldr insertSorted []

/-- Embeds `sorted(df[col].dropna().unique())` for an `Option ℤ` column:
drop the missing values, deduplicate, sort. -/
def selectOptions (col : List (Option ℤ)) : List ℤ :=
  sortInts (col.filterMap id).dedup

/-- The month selectbox options (src/app.py line 25): computed from the
full base table. -/
def monthOptions (rows : List Row) : List ℤ :=
  selectOptions (rows.map Row.month)

/-- The day-of-week selectbox options (src/app.py line 32): computed
from the already month-filtered table. -/
def dayOptions (rows : List Row) : List ℤ :=
  selectOptions (rows.map Row.day_of_week)

/-- The hour selectbox options (src/app.py line 39): computed from the
table filtered by month and, when active, day-of-week. -/
def hourOptions (rows : List Row) : List ℤ :=
  selectOptions (rows.map Row.hour)

/-- The optional day-of-week stage (src/app.py lines 31–35): applied
only when the checkbox is ticked (`some d`), otherwise the table passes
through. -/
def applyDayFilter : Option ℤ → List Row → List Row
  | none, rows => rows
  | some d, rows => filterDay d rows

/-- The optional hour stage (src/app.py lines 38–42). -/
def applyHourFilter : Option ℤ → List Row → List Row
  | none, rows => rows
  | some h, rows => filterHour h rows

/-- The whole filter chain (src/app.py lines 28–42): month is mandatory,
day-of-week and hour are optional. -/
def applyFilters (m : ℤ) (d : Option ℤ) (h : Option ℤ) (rows : List Row) : List Row :=
  applyHourFilter h (applyDayFilter d (filterMonth m rows))

/-- A row after the derivation steps of src/app.py: `truth` and
`predictions` hold their coerced numeric values (lines 52–57, 87–92),
and the derived `anomaly_score` (line 140) and `anomaly` (lines 60, 95,
143) columns are attached. -/
structure ScoredRow where
  node_id : ℤ
  month : Option ℤ
  day_of_week : Option ℤ
  hour : Option ℤ
  latitude_x : ℚ
  longitude_x : ℚ
  spatial_cluster_x : ℤ
  grid_cluster_x : ℤ
  truth : ℚ
  predictions : ℚ
  anomaly_score : ℚ
  anomaly : Bool
deriving DecidableEq, Repr

/-- The elementwise effect, on one row, of the script's derivation
(src/app.py lines 52–57 coercion; line 140
`anomaly_score = abs(truth - predictions)`; line 143
`anomaly = anomaly_score > threshold`). The script runs the coercion
and flag pass twice (lines 52–60 and 87–95) before the final score and
flag at 140–143; the repetition is a no-op (proved below). -/
def deriveRow (threshold : ℚ) (r : Row) : ScoredRow :=
  let t := coerceNum r.truth
  let p := coerceNum r.predictions
  let score := |t - p|
  { node_id := r.node_id
    month := r.month
    day_of_week := r.day_of_week
    hour := r.hour
    latitude_x := r.latitude_x
    longitude_x := r.longitude_x
    spatial_cluster_x := r.spatial_cluster_x
    grid_cluster_x := r.grid_cluster_x
    truth := t
    predictions := p
    anomaly_score := score
    anomaly := decide (score > threshold) }

/-- The derivation applied to a whole (filtered) table: pandas column
operations act elementwise on the rows. -/
def deriveTable (threshold : ℚ) (rows : List Row) : List ScoredRow :=
  rows.map (deriveRow threshold)

/-- The coercion pass on the `truth`/`predictions` cells of one row
(src/app.py lines 52–57, applied again at 87–92). -/
def coerceStep (r : Row) : Row :=
  { r with truth := coerceVal r.truth, predictions := coerceVal r.predictions }

/-! ## The raw, untyped table model

For the load-time and column-shape claims the set of columns actually
present matters, so the table is also embedded untyped: a header and
rows of cells, with column access by name. -/

/-- An untyped table: a CSV header and rows of cells. -/
structure Table where
  cols : List String
  rows : List (List Val)
deriving DecidableEq, Repr

/-- Position of a name in a header, `none` when absent. -/
def colIndexAux (c : String) : List String → Option ℕ
  | [] => none
  | s :: ss => if s = c then some 0 else (colIndexAux c ss).map (fun i => i + 1)

/-- Position of a column in the header, `none` when absent (a pandas
access to an absent column raises `KeyError`). -/
def Table.colIndex (t : Table) (c : String) : Option ℕ :=
  colIndexAux c t.cols

/-- Read a column by name: the list of that column's cells, or `none`
(`KeyError`) when the column is absent. -/
def Table.getCol (t : Table) (c : String) : Option (List Val) :=
  (t.colIndex c).map (fun i => t.rows.map (fun r => (r.get? i).getD .na))

/-- Embeds pandas column assignment `t[c] = vals`: overwrite the column
in place when it exists, otherwise append it as the last column. -/
def Table.setCol (t : Table) (c : String) (vals : List Val) : Table :=
  match t.colIndex c with
  | some i => { cols := t.cols, rows := (t.rows.zip vals).map (fun rv => rv.1.set i rv.2) }
  | none => { cols := t.cols ++ [c], rows := (t.rows.zip vals).map (fun rv => rv.1 ++ [rv.2]) }

/-- Cell equality as pandas `==` computes it: a missing value compares
unequal to everything, itself included. -/
def cellEq (a b : Val) : Bool :=
  match a, b with
  | .na, _ => false
  | _, .na => false
  | a, b => a == b

/-- Embeds `t[t[c] == v]` (src/app.py lines 28, 33, 40) on the untyped
table: `KeyError` when the column is absent, otherwise keep the rows
whose cell in that column equals `v`. -/
def Table.filterEq (t : Table) (c : String) (v : Val) : Except String Table :=
  match t.colIndex c with
  | none => .error c
  | some i =>
    .ok { cols := t.cols, rows := t.rows.filter (fun r => cellEq ((r.get? i).getD .na) v) }

/-- The numeric value of a cell known to be numeric (`0` otherwise);
used on columns that have already been coerced. -/
def valNum : Val → ℚ
  | .num q => q
  | _ => 0

/-- The coercion pass on the untyped table (src/app.py lines 52–57 and
again 87–92): `KeyError` when `truth` or `predictions` is absent. -/
def Table.coercePass (t : Table) : Except String Table :=
  match t.getCol "truth" with
  | none => .error "truth"
  | some ts =>
    let t1 := t.setCol "truth" (ts.map coerceVal)
    match t1.getCol "predictions" with
    | none => .error "predictions"
    | some ps => .ok (t1.setCol "predictions" (ps.map coerceVal))

/-- The direct flag pass (src/app.py lines 60 and 95):
`anomaly = abs(truth - predictions) > threshold`. -/
def Table.flagPass (t : Table) (threshold : ℚ) : Except String Table :=
  match t.getCol "truth" with
  | none => .error "truth"
  | some ts =>
    match t.getCol "predictions" with
    | none => .error "predictions"
    | some ps =>
      .ok (t.setCol "anomaly"
        (List.zipWith (fun a b => Val.bool (decide (|valNum a - valNum b| > threshold))) ts ps))

/-- The score pass (src/app.py line 140):
`anomaly_score = abs(truth - predictions)`. -/
def Table.scorePass (t : Table) : Except String Table :=
  match t.getCol "truth" with
  | none => .error "truth"
  | some ts =>
    match t.getCol "predictions" with
    | none => .error "predictions"
    | some ps =>
      .ok (t.setCol "anomaly_score"
        (List.zipWith (fun a b => Val.num |valNum a - valNum b|) ts ps))

/-- The flag-from-score pass (src/app.py line 143):
`anomaly = anomaly_score > threshold`. -/
def Table.flagFromScore (t : Table) (threshold : ℚ) : Except String Table :=
  match t.getCol "anomaly_score" with
  | none => .error "anomaly_score"
  | some ss =>
    .ok (t.setCol "anomaly" (ss.map (fun s => Val.bool (decide (valNum s > threshold)))))

/-- The full derivation sequence of src/app.py on the untyped table, in
source order: coercion and flag (lines 52–60), the same two again
(lines 87–95), then score (line 140) and flag from score (line 143). -/
def Table.deriveAnomalies (t : Table) (threshold : ℚ) : Except String Table := do
  let t1 ← t.coercePass
  let t2 ← t1.flagPass threshold
  let t3 ← t2.coercePass
  let t4 ← t3.flagPass threshold
  let t5 ← t4.scorePass
  t5.flagFromScore threshold

/-- A load-time failure of `pd.read_csv` (the spec's `DataLoadError`). -/
inductive DataLoadError where
  | fileNotFound
  | parserError
deriving DecidableEq, Repr

/-- What the filesystem offers `pd.read_csv`: no file, an unparseable
file, or a parsed table. -/
inductive ReadResult where
  | missing
  | malformed
  | parsed (t : Table)
deriving Repr

/-- Embeds `load_data` (src/app.py lines 7–9): a bare
`pd.read_csv("data/processed/node_features_with_predictions.csv")`.
It raises at load time when the file is missing or malformed, and
performs no validation of the columns of a file that parses. -/
def load_data : ReadResult → Except DataLoadError Table
  | .missing => .error .fileNotFound
  | .malformed => .error .parserError
  | .parsed t => .ok t

/-! ## Helper lemmas -/

theorem coerceVal_eq_num (v : Val) : coerceVal v = Val.num (coerceNum v) := by
  unfold coerceVal coerceNum fillna0
  cases h : toNumeric v with
  | num q => rfl
  | str s => cases v <;> simp [toNumeric] at h <;> split at h <;> simp_all
  | bool b => cases v <;> simp [toNumeric] at h <;> split at h <;> simp_all
  | na => rfl

theorem toNumeric_num (q : ℚ) : toNumeric (Val.num q) = Val.num q := rfl

theorem coerceNum_num (q : ℚ) : coerceNum (Val.num q) = q := rfl

theorem coerceVal_idem (v : Val) : coerceVal (coerceVal v) = coerceVal v := by
  rw [coerceVal_eq_num v, coerceVal_eq_num (Val.num (coerceNum v)), coerceNum_num]

theorem coerceNum_coerceVal (v : Val) : coerceNum (coerceVal v) = coerceNum v := by
  rw [coerceVal_eq_num v, coerceNum_num]

theorem mem_insertSorted (a x : ℤ) (l : List ℤ) :
    a ∈ insertSorted x l ↔ a = x ∨ a ∈ l := by
  induction l with
  | nil => simp [insertSorted]
  | cons y ys ih =>
    by_cases h : x ≤ y
    · simp [insertSorted, h]
    · simp [insertSorted, h, ih]
      tauto

theorem mem_sortInts (a : ℤ) (l : List ℤ) : a ∈ sortInts l ↔ a ∈ l := by
  induction l with
  | nil => simp [sortInts]
  | cons x xs ih =>
    show a ∈ insertSorted x (sortInts xs) ↔ _
    rw [mem_insertSorted, ih]
    simp

theorem mem_selectOptions (x : ℤ) (col : List (Option ℤ)) :
    x ∈ selectOptions col ↔ some x ∈ col := by
  unfold selectOptions
  rw [mem_sortInts, List.mem_dedup, List.mem_filterMap]
  simp [id]

/-! ## Claims C1, C2, C3, C5, C9 -/

/-- A concrete row: `(truth = 5, predictions = 2)` in June (the spec's
example scenario 1). -/
def rowA : Row :=
  { node_id := 1, month := some 6, day_of_week := some 2, hour := some 8
    latitude_x := 40, longitude_x := -74, spatial_cluster_x := 1, grid_cluster_x := 3
    truth := Val.num 5, predictions := Val.num 2 }

/-- A concrete row whose `truth` cell is the unparseable string `"N/A"`
(the spec's example scenario 2), with a missing month. -/
def rowNA : Row :=
  { node_id := 2, month := none, day_of_week := some 3, hour := some 9
    latitude_x := 41, longitude_x := -73, spatial_cluster_x := 2, grid_cluster_x := 4
    truth := Val.str "N/A", predictions := Val.num 4 }

/-- C1: every row of the derived table comes from a source row, its
`truth`/`predictions` hold that row's coerced values, and its
`anomaly_score` equals `|truth - predictions|` of those coerced
values. -/
theorem C1_anomaly_score_is_abs_diff (θ : ℚ) (rows : List Row) (s : ScoredRow)
    (hs : s ∈ deriveTable θ rows) :
    ∃ r ∈ rows, s = deriveRow θ r ∧
      s.truth = coerceNum r.truth ∧
      s.predictions = coerceNum r.predictions ∧
      s.anomaly_score = |coerceNum r.truth - coerceNum r.predictions| := by
  rcases List.mem_map.mp hs with ⟨r, hr, rfl⟩
  exact ⟨r, hr, rfl, rfl, rfl, rfl⟩

theorem C1_witness :
    ∃ r ∈ [rowA], deriveRow 2 rowA = deriveRow 2 r ∧
      (deriveRow 2 rowA).truth = coerceNum r.truth ∧
      (deriveRow 2 rowA).predictions = coerceNum r.predictions ∧
      (deriveRow 2 rowA).anomaly_score = |coerceNum r.truth - coerceNum r.predictions| :=
  C1_anomaly_score_is_abs_diff 2 [rowA] (deriveRow 2 rowA) (by simp [deriveTable])

/-- C2: the derived flag is exactly `anomaly_score > threshold`, with
strict inequality: a row whose score equals the threshold is not
flagged. -/
theorem C2_strict_threshold (θ : ℚ) (rows : List Row) (s : ScoredRow)
    (hs : s ∈ deriveTable θ rows) :
    (s.anomaly = true ↔ s.anomaly_score > θ) ∧
      (s.anomaly_score = θ → s.anomaly = false) := by
  rcases List.mem_map.mp hs with ⟨r, _, rfl⟩
  constructor
  · simp [deriveRow]
  · intro h
    simp only [deriveRow] at h ⊢
    simp [h]

theorem coerceNum_of_na (v : Val) (h : toNumeric v = Val.na) : coerceNum v = 0 := by
  unfold coerceNum
  rw [h]

theorem C2_witness : (deriveRow 3 rowA).anomaly = false :=
  (C2_strict_threshold 3 [rowA] (deriveRow 3 rowA) (by simp [deriveTable])).2 (by
    show |coerceNum (Val.num 5) - coerceNum (Val.num 2)| = (3 : ℚ)
    rw [coerceNum_num, coerceNum_num]
    norm_num)

/-- C3: coercion is total — it always produces a number — and any cell
that `pd.to_numeric` cannot parse (or that is missing) is coerced to
`0` before scoring; the derivation itself never fails and yields one
output row per input row. -/
theorem C3_coercion_total_zero_default (θ : ℚ) (rows : List Row) :
    (deriveTable θ rows).length = rows.length ∧
      (∀ v : Val, coerceVal v = Val.num (coerceNum v)) ∧
      (∀ r ∈ rows,
        (toNumeric r.truth = Val.na → (deriveRow θ r).truth = 0) ∧
        (toNumeric r.predictions = Val.na → (deriveRow θ r).predictions = 0)) := by
  refine ⟨List.length_map _ _, coerceVal_eq_num, ?_⟩
  intro r _
  constructor
  · intro h
    show coerceNum r.truth = 0
    unfold coerceNum
    rw [h]
  · intro h
    show coerceNum r.predictions = 0
    unfold coerceNum
    rw [h]

theorem C3_witness :
    (deriveTable 2 [rowNA]).length = [rowNA].length ∧
      (deriveRow 2 rowNA).truth = 0 ∧
      (deriveRow 2 rowNA).anomaly_score = 4 ∧
      (deriveRow 2 rowNA).anomaly = true := by
  have hna : toNumeric rowNA.truth = Val.na := by decide
  have hc0 : coerceNum rowNA.truth = 0 := coerceNum_of_na _ hna
  have h := C3_coercion_total_zero_default 2 [rowNA]
  refine ⟨h.1, (h.2.2 rowNA (by simp)).1 hna, ?_, ?_⟩
  · show |coerceNum rowNA.truth - coerceNum (Val.num 4)| = (4 : ℚ)
    rw [hc0, coerceNum_num]
    norm_num
  · show decide (|coerceNum rowNA.truth - coerceNum (Val.num 4)| > (2 : ℚ)) = true
    rw [hc0, coerceNum_num]
    norm_num

/-- C5: the day-of-week and hour equality filters commute on any table,
in particular on the month-filtered one. -/
theorem C5_filter_order_irrelevant (rows : List Row) (m d h : ℤ) :
    filterHour h (filterDay d (filterMonth m rows)) =
      filterDay d (filterHour h (filterMonth m rows)) := by
  unfold filterHour filterDay
  rw [List.filter_filter, List.filter_filter]
  congr 1
  funext r
  exact Bool.and_comm _ _

/-- C9: the coercion-and-flag step is idempotent: running the coercion
pass on already-coerced cells changes nothing, and the derivation of an
already-coerced row equals that of the original row — so the script's
second pass (lines 87–95) is a no-op. -/
theorem C9_coercion_idempotent (r : Row) (θ : ℚ) :
    coerceStep (coerceStep r) = coerceStep r ∧
      deriveRow θ (coerceStep r) = deriveRow θ r := by
  constructor
  · unfold coerceStep
    simp [coerceVal_idem]
  · unfold deriveRow coerceStep
    simp [coerceNum_coerceVal]

/-! ## Claims C8, C10 -/

/-- C8: the day-of-week options are exactly the distinct non-missing
day-of-week values present in the month-filtered table, and the hour
options are exactly the distinct non-missing hour values present in the
table filtered by month and, when active, day-of-week. -/
theorem C8_cascading_options (rows : List Row) (m : ℤ) (dsel : Option ℤ) :
    (∀ d : ℤ, d ∈ dayOptions (filterMonth m rows) ↔
      some d ∈ (filterMonth m rows).map Row.day_of_week) ∧
    (∀ h : ℤ, h ∈ hourOptions (applyDayFilter dsel (filterMonth m rows)) ↔
      some h ∈ (applyDayFilter dsel (filterMonth m rows)).map Row.hour) := by
  constructor
  · intro d
    exact mem_selectOptions d _
  · intro h
    exact mem_selectOptions h _

/-- C10: a row retained by the month / day-of-week / hour equality
filter carries exactly the selected (hence non-missing) value, and
every offered option is a value actually present (non-missing) in the
corresponding column. -/
theorem C10_missing_values_excluded (rows : List Row) (m d h : ℤ) (r : Row) (x : ℤ) :
    (r ∈ filterMonth m rows → r.month = some m) ∧
    (r ∈ filterDay d rows → r.day_of_week = some d) ∧
    (r ∈ filterHour h rows → r.hour = some h) ∧
    (x ∈ monthOptions rows → some x ∈ rows.map Row.month) ∧
    (x ∈ dayOptions rows → some x ∈ rows.map Row.day_of_week) ∧
    (x ∈ hourOptions rows → some x ∈ rows.map Row.hour) := by
  refine ⟨?_, ?_, ?_, ?_, ?_, ?_⟩
  · intro hr
    exact beq_iff_eq.mp (List.mem_filter.mp hr).2
  · intro hr
    exact beq_iff_eq.mp (List.mem_filter.mp hr).2
  · intro hr
    exact beq_iff_eq.mp (List.mem_filter.mp hr).2
  · intro hx
    exact (mem_selectOptions x _).mp hx
  · intro hx
    exact (mem_selectOptions x _).mp hx
  · intro hx
    exact (mem_selectOptions x _).mp hx

theorem C10_witness :
    rowA.month = some 6 ∧ some 6 ∈ [rowA, rowNA].map Row.month := by
  have h := C10_missing_values_excluded [rowA, rowNA] 6 2 8 rowA 6
  refine ⟨h.1 ?_, h.2.2.2.1 ?_⟩
  · decide
  · decide

/-! ## Lemmas about the untyped table -/

theorem colIndexAux_isSome_iff (c : String) (cs : List String) :
    (colIndexAux c cs).isSome = true ↔ c ∈ cs := by
  induction cs with
  | nil => simp [colIndexAux]
  | cons s ss ih =>
    by_cases h : s = c
    · simp [colIndexAux, h]
    · simp [colIndexAux, h, ih, eq_comm]
      intro hc
      exact absurd hc.symm h

theorem colIndex_isSome_iff (t : Table) (c : String) :
    (t.colIndex c).isSome = true ↔ c ∈ t.cols :=
  colIndexAux_isSome_iff c t.cols

theorem colIndex_mem_of_some (t : Table) (c : String) (i : ℕ)
    (h : t.colIndex c = some i) : c ∈ t.cols := by
  rw [← colIndex_isSome_iff t c, h]
  rfl

theorem colIndex_ex_of_mem (t : Table) (c : String) (h : c ∈ t.cols) :
    ∃ i, t.colIndex c = some i := by
  rcases hi : t.colIndex c with _ | i
  · rw [← colIndex_isSome_iff t c, hi] at h
    simp at h
  · exact ⟨i, rfl⟩

theorem setCol_cols (t : Table) (c : String) (vs : List Val) :
    (t.setCol c vs).cols = t.cols ∨ (t.setCol c vs).cols = t.cols ++ [c] := by
  unfold Table.setCol
  rcases t.colIndex c with _ | i
  · right
    rfl
  · left
    rfl

theorem cols_subset_setCol (t : Table) (c : String) (vs : List Val) :
    t.cols ⊆ (t.setCol c vs).cols := by
  rcases setCol_cols t c vs with h | h
  · rw [h]
    exact fun x hx => hx
  · rw [h]
    exact List.subset_append_left _ _

theorem self_mem_setCol_cols (t : Table) (c : String) (vs : List Val) :
    c ∈ (t.setCol c vs).cols := by
  unfold Table.setCol
  rcases hi : t.colIndex c with _ | i
  · simp
  · simpa using colIndex_mem_of_some t c i hi

theorem setCol_rows_nil (t : Table) (c : String) (vs : List Val) (h : t.rows = []) :
    (t.setCol c vs).rows = [] := by
  unfold Table.setCol
  rcases t.colIndex c with _ | i
  · simp [h]
  · simp [h]

theorem getCol_nil (t : Table) (c : String) (hr : t.rows = []) (hc : c ∈ t.cols) :
    t.getCol c = some [] := by
  unfold Table.getCol
  rcases colIndex_ex_of_mem t c hc with ⟨i, hi⟩
  rw [hi, hr]
  rfl

theorem coercePass_empty (t : Table) (hr : t.rows = [])
    (ht : "truth" ∈ t.cols) (hp : "predictions" ∈ t.cols) :
    ∃ u, t.coercePass = Except.ok u ∧ u.rows = [] ∧ t.cols ⊆ u.cols := by
  have h1r : (t.setCol "truth" ([].map coerceVal)).rows = [] := setCol_rows_nil t _ _ hr
  have h1c : t.cols ⊆ (t.setCol "truth" ([].map coerceVal)).cols := cols_subset_setCol t _ _
  unfold Table.coercePass
  rw [getCol_nil t _ hr ht]
  dsimp only
  rw [getCol_nil _ _ h1r (h1c hp)]
  dsimp only
  exact ⟨_, rfl, setCol_rows_nil _ _ _ h1r,
    h1c.trans (cols_subset_setCol _ _ _)⟩

theorem flagPass_empty (t : Table) (θ : ℚ) (hr : t.rows = [])
    (ht : "truth" ∈ t.cols) (hp : "predictions" ∈ t.cols) :
    ∃ u, t.flagPass θ = Except.ok u ∧ u.rows = [] ∧ t.cols ⊆ u.cols ∧
      "anomaly" ∈ u.cols := by
  unfold Table.flagPass
  rw [getCol_nil t _ hr ht, getCol_nil t _ hr hp]
  exact ⟨_, rfl, setCol_rows_nil _ _ _ hr, cols_subset_setCol _ _ _,
    self_mem_setCol_cols _ _ _⟩

theorem scorePass_empty (t : Table) (hr : t.rows = [])
    (ht : "truth" ∈ t.cols) (hp : "predictions" ∈ t.cols) :
    ∃ u, t.scorePass = Except.ok u ∧ u.rows = [] ∧ t.cols ⊆ u.cols ∧
      "anomaly_score" ∈ u.cols := by
  unfold Table.scorePass
  rw [getCol_nil t _ hr ht, getCol_nil t _ hr hp]
  exact ⟨_, rfl, setCol_rows_nil _ _ _ hr, cols_subset_setCol _ _ _,
    self_mem_setCol_cols _ _ _⟩

theorem flagFromScore_empty (t : Table) (θ : ℚ) (hr : t.rows = [])
    (hs : "anomaly_score" ∈ t.cols) :
    ∃ u, t.flagFromScore θ = Except.ok u ∧ u.rows = [] ∧ t.cols ⊆ u.cols ∧
      "anomaly" ∈ u.cols := by
  unfold Table.flagFromScore
  rw [getCol_nil t _ hr hs]
  exact ⟨_, rfl, setCol_rows_nil _ _ _ hr, cols_subset_setCol _ _ _,
    self_mem_setCol_cols _ _ _⟩

theorem deriveAnomalies_empty (t : Table) (θ : ℚ) (hr : t.rows = [])
    (ht : "truth" ∈ t.cols) (hp : "predictions" ∈ t.cols) :
    ∃ w, t.deriveAnomalies θ = Except.ok w ∧ w.rows = [] ∧
      "anomaly_score" ∈ w.cols ∧ "anomaly" ∈ w.cols := by
  unfold Table.deriveAnomalies
  rcases coercePass_empty t hr ht hp with ⟨t1, e1, r1, s1⟩
  rcases flagPass_empty t1 θ r1 (s1 ht) (s1 hp) with ⟨t2, e2, r2, s2, _⟩
  rcases coercePass_empty t2 r2 (s2 (s1 ht)) (s2 (s1 hp)) with ⟨t3, e3, r3, s3⟩
  rcases flagPass_empty t3 θ r3 (s3 (s2 (s1 ht))) (s3 (s2 (s1 hp))) with ⟨t4, e4, r4, s4, _⟩
  rcases scorePass_empty t4 r4 (s4 (s3 (s2 (s1 ht)))) (s4 (s3 (s2 (s1 hp)))) with
    ⟨t5, e5, r5, s5, hsc⟩
  rcases flagFromScore_empty t5 θ r5 hsc with ⟨t6, e6, r6, s6, han⟩
  rw [e1]
  dsimp only [Bind.bind, Except.bind]
  rw [e2]
  dsimp only [Bind.bind, Except.bind]
  rw [e3]
  dsimp only [Bind.bind, Except.bind]
  rw [e4]
  dsimp only [Bind.bind, Except.bind]
  rw [e5]
  dsimp only [Bind.bind, Except.bind]
  exact ⟨t6, e6, r6, s6 hsc, han⟩

/-! ## Claims C4, C6, C7 -/

/-- A parseable table that lacks the required `month` column (and most
other required columns). -/
def tableNoMonth : Table :=
  { cols := ["node_id", "truth", "predictions"]
    rows := [[Val.num 1, Val.num 5, Val.num 2]] }

/-- C4 counterexample: a file that parses but lacks the required
`month` column is loaded successfully by `load_data` — no load-time
failure occurs — and the missing column instead surfaces later, as a
key-error when the month filter first accesses it. -/
theorem C4_counterexample :
    load_data (ReadResult.parsed tableNoMonth) = Except.ok tableNoMonth ∧
      tableNoMonth.filterEq "month" (Val.num 6) = Except.error "month" :=
  ⟨rfl, rfl⟩

/-- C4 amended: a missing or malformed file does fail at load time, but
`load_data` performs no column validation — any parsed table is
returned as-is, and an absent required column only fails later, as a
key-error, when filtering or derivation accesses it. -/
theorem C4_amended_no_column_validation (t : Table) (c : String) (v : Val) :
    load_data ReadResult.missing = Except.error DataLoadError.fileNotFound ∧
      load_data ReadResult.malformed = Except.error DataLoadError.parserError ∧
      load_data (ReadResult.parsed t) = Except.ok t ∧
      (c ∉ t.cols → t.filterEq c v = Except.error c) := by
  refine ⟨rfl, rfl, rfl, ?_⟩
  intro hc
  unfold Table.filterEq
  rcases hi : t.colIndex c with _ | i
  · rfl
  · exact absurd (colIndex_mem_of_some t c i hi) hc

theorem C4_witness :
    load_data ReadResult.missing = Except.error DataLoadError.fileNotFound ∧
      load_data ReadResult.malformed = Except.error DataLoadError.parserError ∧
      load_data (ReadResult.parsed tableNoMonth) = Except.ok tableNoMonth ∧
      tableNoMonth.filterEq "hour" (Val.num 0) = Except.error "hour" := by
  have h := C4_amended_no_column_validation tableNoMonth "hour" (Val.num 0)
  exact ⟨h.1, h.2.1, h.2.2.1, h.2.2.2 (by decide)⟩

/-- C6: filtering removes rows only: the result keeps exactly the base
table's columns in order, its rows are a sublist of the base rows (same
relative order), and every retained row is the identical row of the
base table. -/
theorem C6_filter_removes_rows_only (t u : Table) (c : String) (v : Val)
    (h : t.filterEq c v = Except.ok u) :
    u.cols = t.cols ∧ u.rows.Sublist t.rows ∧ ∀ r ∈ u.rows, r ∈ t.rows := by
  unfold Table.filterEq at h
  rcases hi : t.colIndex c with _ | i
  · rw [hi] at h
    exact absurd h (by simp)
  · rw [hi] at h
    injection h with h
    subst h
    exact ⟨rfl, List.filter_sublist _, fun r hr => (List.mem_filter.mp hr).1⟩

/-- A two-row base table for the filtering witnesses. -/
def baseT : Table :=
  { cols := ["month", "truth", "predictions"]
    rows := [[Val.num 6, Val.num 5, Val.num 2], [Val.num 7, Val.num 1, Val.num 1]] }

/-- The June slice of `baseT`. -/
def juneT : Table :=
  { cols := ["month", "truth", "predictions"]
    rows := [[Val.num 6, Val.num 5, Val.num 2]] }

theorem C6_witness :
    juneT.cols = baseT.cols ∧ juneT.rows.Sublist baseT.rows ∧
      ∀ r ∈ juneT.rows, r ∈ baseT.rows :=
  C6_filter_removes_rows_only baseT juneT "month" (Val.num 6) rfl

/-- C7: when the selected column exists, equality filtering returns a
table (never an error), even when no row matches; and the derivation
applied to an empty-rowed table with the `truth` and `predictions`
columns succeeds, yielding an empty table that carries the
`anomaly_score` and `anomaly` columns. -/
theorem C7_empty_selection_graceful (t : Table) (c : String) (v : Val) (θ : ℚ)
    (hc : c ∈ t.cols) :
    ∃ u, t.filterEq c v = Except.ok u ∧ u.cols = t.cols ∧
      (u.rows = [] → "truth" ∈ t.cols → "predictions" ∈ t.cols →
        ∃ w, u.deriveAnomalies θ = Except.ok w ∧ w.rows = [] ∧
          "anomaly_score" ∈ w.cols ∧ "anomaly" ∈ w.cols) := by
  rcases colIndex_ex_of_mem t c hc with ⟨i, hi⟩
  unfold Table.filterEq
  rw [hi]
  refine ⟨_, rfl, rfl, ?_⟩
  intro hrows ht hp
  exact deriveAnomalies_empty _ θ hrows ht hp

theorem C7_witness :
    ∃ u, baseT.filterEq "month" (Val.num 1) = Except.ok u ∧ u.cols = baseT.cols ∧
      (u.rows = [] → "truth" ∈ baseT.cols → "predictions" ∈ baseT.cols →
        ∃ w, u.deriveAnomalies 2 = Except.ok w ∧ w.rows = [] ∧
          "anomaly_score" ∈ w.cols ∧ "anomaly" ∈ w.cols) :=
  C7_empty_selection_graceful baseT "month" (Val.num 1) 2 (by decide)
